import Mathlib

/-!
Shallow embedding of the JobSpy CLI report/export layer.

Source files embedded here:
* `src/utils.py` — `format_content`, `get_html_template`, `format_data`,
  `generate_descriptions`, `generate_html_content`;
* `src/src/cli/scrape.py` — the result-count validation block of
  `collect_user_inputs` (lines 113–128) and `save_results` (lines 152–164).

Modelling conventions:
* a pandas cell is a `Val`: either a missing value (`NaN`) or a string;
  Python `str()` of a missing value is the literal text `"nan"`;
* Python `str.replace(old, new)` (global, left-to-right, non-overlapping)
  is modelled by `replaceAllF` / `pyReplace`;
* Python f-strings and `str.format` on the fixed template are rendered as
  explicit string concatenation, with `{{` / `}}` rendered as the single
  brace they produce, exactly as `str.format` does.
-/

/-- A pandas cell value: either a missing value (NaN) or a string.
Python `str()` of a missing value yields the text `"nan"`. -/
inductive Val where
  | missing
  | str (s : String)
  deriving DecidableEq

/-- Python `str()` of a cell value. -/
def Val.toStr : Val → String
  | .missing => "nan"
  | .str s => s

/-- One scraped job record, restricted to the columns the report layer reads
(spec §3 JobRecord). -/
structure Row where
  title : Val
  company : Val
  company_url : Val
  location : Val
  date_posted : Val
  emails : Val
  description : Val
  deriving DecidableEq

/-- Fuel-driven worker for `pyReplace`.  With `fuel ≥ l.length` (always the
case through `pyReplace`) this replaces every non-overlapping occurrence of
`pat` in `l` by `rep`, scanning left to right — the semantics of Python
`str.replace` for a non-empty pattern. -/
def replaceAllF (pat rep : List Char) : Nat → List Char → List Char
  | 0, l => l
  | _ + 1, [] => []
  | fuel + 1, c :: rest =>
    if pat.isPrefixOf (c :: rest) then
      rep ++ replaceAllF pat rep fuel (List.drop (pat.length - 1) rest)
    else
      c :: replaceAllF pat rep fuel rest

/-- Python `s.replace(pat, rep)` for a non-empty pattern. -/
def pyReplace (s pat rep : String) : String :=
  ⟨replaceAllF pat.data rep.data s.data.length s.data⟩

/-- Embeds `format_content` (src/utils.py lines 11–13):
`str(row).replace("<", "&lt;").replace(">", "&gt;")`. -/
def format_content (v : Val) : String :=
  pyReplace (pyReplace v.toStr "<" "&lt;") ">" "&gt;"

/-- Embeds the template-literal escaping applied to `description` and
`title` in `generate_descriptions` (src/utils.py lines 194–195):
`.replace('\\', '\\\\').replace('`', '\\`').replace('${', '\\${')`. -/
def escape_js (s : String) : String :=
  pyReplace (pyReplace (pyReplace s "\\" "\\\\") "`" "\\`") "$\x7b" "\\$\x7b"

/-- Embeds the `company_html` local of `format_data`
(src/utils.py lines 173–177). -/
def company_html (row : Row) : String :=
  let company_url := row.company_url.toStr
  if company_url = "nan" ∨ company_url = "-" then "-"
  else
    "<a href=\"" ++ company_url ++ "\" target=\"_blank\" rel=\"noopener noreferrer\">"
      ++ format_content row.company ++ "</a>"

/-- Embeds `format_data` (src/utils.py lines 171–189); the returned
f-string is rendered as explicit concatenation with the exact whitespace of
the source literal. -/
def format_data (idx : Nat) (row : Row) : String :=
  "\n            <tr>\n                <td>" ++ toString (idx + 1)
    ++ "</td>\n                <td>" ++ format_content row.title
    ++ "</td>\n                <td>" ++ company_html row
    ++ "</td>\n                <td>" ++ format_content row.location
    ++ "</td>\n                <td>" ++ format_content row.date_posted
    ++ "</td>\n                <td>" ++ format_content row.emails
    ++ "</td>\n                <td><button class=\"view-btn\" onclick=\"showModal("
    ++ toString idx
    ++ ")\">View Description</button></td>\n            </tr>\n    "

/-- Embeds `generate_descriptions` (src/utils.py lines 192–196):
one JavaScript object-literal map entry keyed by the row index. -/
def generate_descriptions (idx : Nat) (row : Row) : String :=
  toString idx ++ ": \x7btitle: `" ++ escape_js row.title.toStr
    ++ "`, desc: `" ++ escape_js row.description.toStr ++ "`\x7d,\n"

/-- Template text of `get_html_template` (src/utils.py lines 16–168) up to
the `{3}` placeholder. -/
def tplA : String :=
  "<!DOCTYPE html>\n    <html>\n    <head>\n        <meta charset=\"UTF-8\">\n        <title>Jobs Table</title>\n"
  ++ "        <style>\n            body \x7b\n                font-family: Arial, sans-serif;\n                margin: 20px;\n"
  ++ "                background-color: #f5f5f5;\n            \x7d\n            table \x7b\n                width: 100%;\n"
  ++ "                border-collapse: collapse;\n                background-color: white;\n                box-shadow: 0 2px 4px rgba(0,0,0,0.1);\n"
  ++ "            \x7d\n            th \x7b\n                background-color: paleturquoise;\n                padding: 12px;\n"
  ++ "                text-align: left;\n                font-weight: bold;\n                border-bottom: 2px solid #ddd;\n"
  ++ "            \x7d\n            td \x7b\n                background-color: lavender;\n                padding: 12px;\n"
  ++ "                border-bottom: 1px solid #ddd;\n            \x7d\n            tr:hover td \x7b\n                background-color: #e6d5f5;\n"
  ++ "            \x7d\n            .view-btn \x7b\n                background-color: #4CAF50;\n                color: white;\n"
  ++ "                border: none;\n                padding: 6px 12px;\n                cursor: pointer;\n"
  ++ "                border-radius: 4px;\n                font-size: 14px;\n            \x7d\n            .view-btn:hover \x7b\n"
  ++ "                background-color: #45a049;\n            \x7d\n            \n            .modal \x7b\n"
  ++ "                display: none;\n                position: fixed;\n                z-index: 1000;\n"
  ++ "                left: 0;\n                top: 0;\n                width: 100%;\n                height: 100%;\n"
  ++ "                background-color: rgba(0,0,0,0.5);\n            \x7d\n            .modal-content \x7b\n"
  ++ "                background-color: white;\n                margin: 5% auto;\n                padding: 20px;\n"
  ++ "                border-radius: 8px;\n                width: 80%;\n                max-width: 800px;\n"
  ++ "                max-height: 80vh;\n                overflow-y: auto;\n                box-shadow: 0 4px 6px rgba(0,0,0,0.3);\n"
  ++ "            \x7d\n            .close \x7b\n                color: #aaa;\n                float: right;\n"
  ++ "                font-size: 28px;\n                font-weight: bold;\n                cursor: pointer;\n"
  ++ "                line-height: 20px;\n            \x7d\n            .close:hover \x7b\n                color: #000;\n"
  ++ "            \x7d\n            .modal-header \x7b\n                border-bottom: 2px solid #4CAF50;\n"
  ++ "                padding-bottom: 10px;\n                margin-bottom: 15px;\n            \x7d\n            .modal-body \x7b\n"
  ++ "                line-height: 1.6;\n                white-space: pre-wrap;\n            \x7d\n        </style>\n"
  ++ "    </head>\n    <body>\n        <h1>Search Query: "

/-- Template text between the `{3}` and `{0}` placeholders, up to the
`"Total Leads: "` marker which is split off for the row-count theorems. -/
def tplB0 : String :=
  "</h1>\n        <p><strong>"

/-- Template text between the `{0}` and `{1}` placeholders. -/
def tplC : String :=
  "</strong></p>\n        <table id=\"jobsTable\">\n            <thead>\n                <tr>\n                    <th>#</th>\n"
  ++ "                    <th>Title</th>\n                    <th>Company</th>\n                    <th>Location</th>\n"
  ++ "                    <th>Date Posted</th>\n                    <th>Email</th>\n                    <th>Description</th>\n"
  ++ "                </tr>\n            </thead>\n            <tbody>\n                "

/-- Template text between the `{1}` and `{2}` placeholders. -/
def tplD : String :=
  "\n            </tbody>\n        </table>\n\n        <div id=\"modal\" class=\"modal\">\n            <div class=\"modal-content\">\n"
  ++ "                <span class=\"close\" onclick=\"closeModal()\">&times;</span>\n                <div class=\"modal-header\">\n"
  ++ "                    <h2 id=\"modalTitle\"></h2>\n                </div>\n                <div class=\"modal-body\" id=\"modalBody\"></div>\n"
  ++ "            </div>\n        </div>\n\n        <script>\n            const descriptions = \x7b"

/-- Template text after the `{2}` placeholder. -/
def tplE : String :=
  "\x7d;\n            \n            function showModal(id) \x7b\n                const modal = document.getElementById(\x27modal\x27);\n"
  ++ "                const modalTitle = document.getElementById(\x27modalTitle\x27);\n                const modalBody = document.getElementById(\x27modalBody\x27);\n"
  ++ "                \n                modalTitle.textContent = descriptions[id].title;\n                modalBody.textContent = descriptions[id].desc;\n"
  ++ "                modal.style.display = \x27block\x27;\n            \x7d\n\n            function closeModal() \x7b\n"
  ++ "                document.getElementById(\x27modal\x27).style.display = \x27none\x27;\n            \x7d\n\n            window.onclick = function(event) \x7b\n"
  ++ "                const modal = document.getElementById(\x27modal\x27);\n                if (event.target == modal) \x7b\n"
  ++ "                    modal.style.display = \x27none\x27;\n                \x7d\n            \x7d\n\n            document.addEventListener(\x27keydown\x27, function(event) \x7b\n"
  ++ "                if (event.key === \x27Escape\x27) \x7b\n                    closeModal();\n                \x7d\n"
  ++ "            \x7d);\n        </script>\n    </body>\n    </html>\n"

/-- Embeds `get_html_template` (src/utils.py lines 16–168) composed with the
`str.format(a0, a1, a2, a3)` call of `generate_html_content` (line 209):
the doubled braces of the Python template are rendered as the single brace
`str.format` produces, and the placeholders `{3}`, `{0}`, `{1}`, `{2}`
(in their textual order) become the four arguments. -/
def get_html_template (a0 a1 a2 a3 : String) : String :=
  tplA ++ a3 ++ tplB0 ++ "Total Leads: " ++ a0 ++ tplC ++ a1 ++ tplD ++ a2 ++ tplE

/-- Embeds the accumulation loop of `generate_html_content`
(src/utils.py lines 201–206): `rows` and `descriptions` accumulated over the
records with `enumerate` starting at `i`. -/
def renderLoop (i : Nat) : List Row → String × String
  | [] => ("", "")
  | r :: rest =>
    let p := renderLoop (i + 1) rest
    (format_data i r ++ p.1, generate_descriptions i r ++ p.2)

/-- Embeds `generate_html_content` (src/utils.py lines 199–209). -/
def generate_html_content (df : List Row) (title : String) : String :=
  let p := renderLoop 0 df
  get_html_template (toString df.length) p.1 p.2 title

example : format_content (Val.str "a<b>c") = "a&lt;b&gt;c" := by decide
example : format_content Val.missing = "nan" := by decide
example : escape_js "a`b" = "a\\`b" := by decide
example : escape_js "\\" = "\\\\" := by decide
example : escape_js "$\x7b" = "\\$\x7b" := by decide
example : escape_js "\\$\x7b" = "\\\\\\$\x7b" := by decide
example :
    generate_descriptions 0
      (Row.mk (Val.str "T") Val.missing Val.missing Val.missing Val.missing
        Val.missing (Val.str "D"))
      = "0: \x7btitle: `T`, desc: `D`\x7d,\n" := by decide

/-- Numeric value of a digit string. -/
def digitsVal (l : List Char) : Nat :=
  l.foldl (fun acc c => 10 * acc + (c.toNat - 48)) 0

/-- Model of Python `int(str)`: optional surrounding whitespace, an optional
sign, then a non-empty run of decimal digits; anything else raises
`ValueError`, modelled as `none`.  (Underscore digit separators are not
modelled.) -/
def pyInt (s : String) : Option Int :=
  let t := ((s.data.dropWhile Char.isWhitespace).reverse.dropWhile Char.isWhitespace).reverse
  match t with
  | '-' :: ds =>
    if ds ≠ [] ∧ ds.all Char.isDigit then some (-(digitsVal ds : Int)) else none
  | '+' :: ds =>
    if ds ≠ [] ∧ ds.all Char.isDigit then some ((digitsVal ds : Int)) else none
  | ds =>
    if ds ≠ [] ∧ ds.all Char.isDigit then some ((digitsVal ds : Int)) else none

/-- Embeds the result-count validation block of `collect_user_inputs`
(src/src/cli/scrape.py lines 119–128): `int(...)` inside `try`, the
out-of-range check, and the `ValueError` fallback.  The returned Bool
records whether the warning message was printed. -/
def num_entries_check (input : String) : Int × Bool :=
  match pyInt input with
  | some n => if n < 1 ∨ n > 1000 then (1000, true) else (n, false)
  | none => (1000, true)

/-- Embeds `.fillna("-")` applied to the `emails` column
(src/src/cli/scrape.py line 154). -/
def fillna_dash (v : Val) : Val :=
  match v with
  | .missing => .str "-"
  | v => v

/-- Modelled from the spec: the ResultSet's column list is the JobRecord
attribute list of spec §3 (the scraper library that fixes the real column
set is not under src/). -/
def csvHeader : List String :=
  ["title", "company", "company_url", "location", "date_posted", "emails", "description"]

/-- Text a cell contributes to the CSV: pandas writes a missing value as
the default `na_rep`, the empty string. -/
def Val.csvStr : Val → String
  | .missing => ""
  | .str s => s

/-- Model of one written CSV field for the exact keyword arguments of the
`to_csv` call in `save_results` (`quoting=csv.QUOTE_NONNUMERIC`,
`escapechar="\\"`, pandas defaults `doublequote=True`, `quotechar='"'`):
a text field is always quoted, and embedded quote characters are doubled
(the csv module uses the escape character only when `doublequote` is off or
quoting is `QUOTE_NONE`, so the configured backslash is not used). -/
def csv_field (s : String) : String :=
  "\"" ++ pyReplace s "\"" "\"\"" ++ "\""

/-- One CSV record: comma-separated quoted fields. -/
def csv_line : List String → String
  | [] => ""
  | [c] => csv_field c
  | c :: cs => csv_field c ++ "," ++ csv_line cs

/-- Cell texts of one record, in column order. -/
def row_cells (r : Row) : List String :=
  [r.title.csvStr, r.company.csvStr, r.company_url.csvStr, r.location.csvStr,
    r.date_posted.csvStr, r.emails.csvStr, r.description.csvStr]

/-- Model of the `to_csv` call of `save_results`
(src/src/cli/scrape.py lines 155–160): a header record (`header=True`
default, `index=False` so no index column) followed by one record per row,
each terminated by the line terminator `"\n"`. -/
def to_csv (df : List Row) : String :=
  String.join ((csvHeader :: df.map row_cells).map (fun cells => csv_line cells ++ "\n"))

/-- Embeds `save_results` (src/src/cli/scrape.py lines 152–164) as explicit
state passing: the first component is the caller's DataFrame as visible
after the call returns (line 154 assigns the filled `emails` column back
into the caller's object in place); the second and third are the written
CSV and HTML texts. -/
def save_results (jobs : List Row) (title : String) : List Row × String × String :=
  let jobs2 := jobs.map (fun r => { r with emails := fillna_dash r.emails })
  (jobs2, to_csv jobs2, generate_html_content jobs2 title)

/-- Suffix of `l` immediately after the first occurrence of `pat`, if any. -/
def findSub (pat : List Char) : List Char → Option (List Char)
  | [] => if pat.isEmpty then some [] else none
  | c :: r =>
    if pat.isPrefixOf (c :: r) then some (List.drop pat.length (c :: r))
    else findSub pat r

/-- Substring occurrence test. -/
def hasSub (pat l : List Char) : Bool :=
  (findSub pat l).isSome

/-- Value of the first double-quoted `href` attribute of an HTML fragment:
the characters between the first `href="` and the next `"`, which is where
an HTML parser ends a double-quoted attribute value. -/
def hrefValue (s : String) : Option String :=
  (findSub ("href=\"".data) s.data).map (fun t => ⟨t.takeWhile (fun c => c ≠ '"')⟩)

/-- Reader model of the JavaScript template-literal body in the report's
script element: the three identity escapes that `escape_js` emits are
accepted; any other escape sequence, an unescaped backtick (which would
terminate the literal) or an unescaped `${` (which would open a
substitution) is a failure. -/
def js_unescape : List Char → Option (List Char)
  | [] => some []
  | '\\' :: '\\' :: r => (js_unescape r).map (fun t => '\\' :: t)
  | '\\' :: '\x60' :: r => (js_unescape r).map (fun t => '\x60' :: t)
  | '\\' :: '$' :: r => (js_unescape r).map (fun t => '$' :: t)
  | '\\' :: _ => none
  | '\x60' :: _ => none
  | '$' :: '\x7b' :: _ => none
  | c :: r => (js_unescape r).map (fun t => c :: t)

/-- One-pass equivalent of the three chained replacements of `escape_js`,
used as a proof vehicle. -/
def onePassEsc : List Char → List Char
  | [] => []
  | '\\' :: r => '\\' :: '\\' :: onePassEsc r
  | '\x60' :: r => '\\' :: '\x60' :: onePassEsc r
  | '$' :: '\x7b' :: r => '\\' :: '$' :: '\x7b' :: onePassEsc r
  | c :: r => c :: onePassEsc r

example : num_entries_check "abc" = (1000, true) := by decide
example : num_entries_check "0" = (1000, true) := by decide
example : num_entries_check "1001" = (1000, true) := by decide
example : num_entries_check "500" = (500, false) := by decide
example : num_entries_check " 1000 " = (1000, false) := by decide
example : csv_field "a\"b" = "\"a\"\"b\"" := by decide
example :
    hrefValue (company_html (Row.mk Val.missing (Val.str "Acme") (Val.str "http://x")
      Val.missing Val.missing Val.missing Val.missing)) = some "http://x" := by decide
example : js_unescape (escape_js "a`$\x7b\\").data = some ("a`$\x7b\\").data := by decide
example : js_unescape ("</script>".data) = some ("</script>".data) := by decide

/-- Pointwise character expansion: the shape of a global single-character
replacement. -/
def charMapL (f : Char → List Char) : List Char → List Char
  | [] => []
  | c :: r => f c ++ charMapL f r

theorem charMapL_append (f : Char → List Char) (a b : List Char) :
    charMapL f (a ++ b) = charMapL f a ++ charMapL f b := by
  induction a with
  | nil => rfl
  | cons c r ih => simp [charMapL, ih]

theorem charMapL_comp (f g : Char → List Char) (l : List Char) :
    charMapL g (charMapL f l) = charMapL (fun c => charMapL g (f c)) l := by
  induction l with
  | nil => rfl
  | cons c r ih => simp [charMapL, charMapL_append, ih]

theorem charMapL_congr (f g : Char → List Char) (l : List Char)
    (h : ∀ c, f c = g c) : charMapL f l = charMapL g l := by
  induction l with
  | nil => rfl
  | cons c r ih => simp [charMapL, h, ih]

theorem replaceAllF_single (a : Char) (rep : List Char) :
    ∀ (fuel : Nat) (l : List Char), l.length ≤ fuel →
      replaceAllF [a] rep fuel l = charMapL (fun c => if c = a then rep else [c]) l := by
  intro fuel
  induction fuel with
  | zero =>
    intro l h
    have : l = [] := List.eq_nil_of_length_eq_zero (Nat.le_zero.mp h)
    subst this
    rfl
  | succ f ih =>
    intro l h
    cases l with
    | nil => rfl
    | cons c r =>
      have hr : r.length ≤ f := by
        simpa [List.length_cons, Nat.succ_le_succ_iff] using h
      by_cases hca : a = c
      · subst hca
        simp [replaceAllF, List.isPrefixOf_cons₂, List.isPrefixOf, charMapL, ih r hr]
      · have hbeq : (a == c) = false := beq_false_of_ne hca
        have hne : ¬ c = a := fun hh => hca hh.symm
        simp [replaceAllF, List.isPrefixOf_cons₂, hbeq, charMapL, ih r hr, hne]

/-- Per-character effect of `.replace('\\', '\\\\')`. -/
def escBackslashChar (c : Char) : List Char :=
  if c = '\\' then ['\\', '\\'] else [c]

/-- Per-character effect of `.replace('`', '\\`')`. -/
def escBacktickChar (c : Char) : List Char :=
  if c = '\x60' then ['\\', '\x60'] else [c]

/-- Fused per-character effect of the first two replacements of
`escape_js`. -/
def escBB (c : Char) : List Char :=
  if c = '\\' then ['\\', '\\'] else if c = '\x60' then ['\\', '\x60'] else [c]

/-- Per-character effect of `format_content`. -/
def escAngleChar (c : Char) : List Char :=
  if c = '<' then ['&', 'l', 't', ';'] else if c = '>' then ['&', 'g', 't', ';'] else [c]

theorem format_content_data (v : Val) :
    (format_content v).data = charMapL escAngleChar v.toStr.data := by
  have h2 : (format_content v).data
      = charMapL (fun c => if c = '>' then ['&', 'g', 't', ';'] else [c])
          (pyReplace v.toStr "<" "&lt;").data :=
    replaceAllF_single '>' ['&', 'g', 't', ';'] _ _ le_rfl
  have h1 : (pyReplace v.toStr "<" "&lt;").data
      = charMapL (fun c => if c = '<' then ['&', 'l', 't', ';'] else [c]) v.toStr.data :=
    replaceAllF_single '<' ['&', 'l', 't', ';'] _ _ le_rfl
  rw [h2, h1, charMapL_comp]
  refine charMapL_congr _ _ _ (fun c => ?_)
  by_cases hlt : c = '<'
  · subst hlt; decide
  · by_cases hgt : c = '>'
    · subst hgt; decide
    · simp [charMapL, escAngleChar, hlt, hgt]

theorem onePassEsc_cons (c : Char) (r : List Char) (h1 : c ≠ '\\') (h2 : c ≠ '\x60')
    (h3 : c = '$' → r.head? ≠ some '\x7b') :
    onePassEsc (c :: r) = c :: onePassEsc r := by
  cases r with
  | nil =>
    unfold onePassEsc
    split
    all_goals simp_all
    all_goals rfl
  | cons d r2 =>
    unfold onePassEsc
    split
    all_goals simp_all
    all_goals rw [onePassEsc.eq_def]

theorem replaceAllF_nil (pat rep : List Char) : ∀ f : Nat, replaceAllF pat rep f [] = [] := by
  intro f; cases f <;> rfl

theorem replaceAllF_cons_ne (pat rep : List Char) (f : Nat) (c : Char) (r : List Char)
    (h : pat.isPrefixOf (c :: r) = false) :
    replaceAllF pat rep (f + 1) (c :: r) = c :: replaceAllF pat rep f r := by
  simp [replaceAllF, h]

theorem replaceAllF_cons_match (pat rep : List Char) (f : Nat) (c : Char) (r : List Char)
    (h : pat.isPrefixOf (c :: r) = true) :
    replaceAllF pat rep (f + 1) (c :: r)
      = rep ++ replaceAllF pat rep f (List.drop (pat.length - 1) r) := by
  simp [replaceAllF, h]

theorem isPrefixOf_dollar_head (c : Char) (h : c ≠ '$') (x : List Char) :
    List.isPrefixOf ['$', '\x7b'] (c :: x) = false := by
  rw [List.isPrefixOf_cons₂]
  simp [beq_false_of_ne (Ne.symm h)]

theorem isPrefixOf_dollar_second (d : Char) (h : d ≠ '\x7b') (x : List Char) :
    List.isPrefixOf ['$', '\x7b'] ('$' :: d :: x) = false := by
  rw [List.isPrefixOf_cons₂, List.isPrefixOf_cons₂]
  simp [beq_false_of_ne (Ne.symm h)]

theorem isPrefixOf_dollar_single :
    List.isPrefixOf ['$', '\x7b'] ['$'] = false := by decide

theorem isPrefixOf_dollar_hit (x : List Char) :
    List.isPrefixOf ['$', '\x7b'] ('$' :: '\x7b' :: x) = true := by
  rw [List.isPrefixOf_cons₂, List.isPrefixOf_cons₂]
  simp [List.isPrefixOf]

theorem escBB_cons_shape (d : Char) (r2 : List Char) :
    ∃ e y, charMapL escBB (d :: r2) = e :: y ∧ (e = d ∨ e = '\\') := by
  by_cases h1 : d = '\\'
  · subst h1
    exact ⟨'\\', '\\' :: charMapL escBB r2, by simp [charMapL, escBB], Or.inr rfl⟩
  · by_cases h2 : d = '\x60'
    · subst h2
      exact ⟨'\\', '\x60' :: charMapL escBB r2, by simp [charMapL, escBB], Or.inr rfl⟩
    · exact ⟨d, charMapL escBB r2, by simp [charMapL, escBB, h1, h2], Or.inl rfl⟩

theorem replaceAll_dollar_onePass :
    ∀ (fuel : Nat) (l : List Char), (charMapL escBB l).length ≤ fuel →
      replaceAllF ['$', '\x7b'] ['\\', '$', '\x7b'] fuel (charMapL escBB l) = onePassEsc l := by
  intro fuel
  induction fuel using Nat.strong_induction_on with
  | _ fuel ih =>
    intro l h
    cases l with
    | nil =>
      simp only [charMapL]
      rw [replaceAllF_nil]
      rfl
    | cons c r =>
      by_cases hbs : c = '\\'
      · subst hbs
        have himg : charMapL escBB ('\\' :: r) = '\\' :: '\\' :: charMapL escBB r := by
          simp [charMapL, escBB]
        rw [himg] at h ⊢
        obtain ⟨f, rfl⟩ : ∃ f, fuel = f + 2 := by
          refine ⟨fuel - 2, ?_⟩
          have : 2 ≤ fuel := le_trans (by simp) h
          omega
        rw [show f + 2 = (f + 1) + 1 from rfl,
          replaceAllF_cons_ne _ _ _ _ _ (isPrefixOf_dollar_head '\\' (by decide) _),
          replaceAllF_cons_ne _ _ _ _ _ (isPrefixOf_dollar_head '\\' (by decide) _),
          ih f (by omega) r (by simp at h; omega)]
        rfl
      · by_cases hbt : c = '\x60'
        · subst hbt
          have himg : charMapL escBB ('\x60' :: r) = '\\' :: '\x60' :: charMapL escBB r := by
            simp [charMapL, escBB]
          rw [himg] at h ⊢
          obtain ⟨f, rfl⟩ : ∃ f, fuel = f + 2 := by
            refine ⟨fuel - 2, ?_⟩
            have : 2 ≤ fuel := le_trans (by simp) h
            omega
          rw [show f + 2 = (f + 1) + 1 from rfl,
            replaceAllF_cons_ne _ _ _ _ _ (isPrefixOf_dollar_head '\\' (by decide) _),
            replaceAllF_cons_ne _ _ _ _ _ (isPrefixOf_dollar_head '\x60' (by decide) _),
            ih f (by omega) r (by simp at h; omega)]
          rfl
        · by_cases hdl : c = '$'
          · subst hdl
            have himg : charMapL escBB ('$' :: r) = '$' :: charMapL escBB r := by
              simp [charMapL, escBB]
            rw [himg] at h ⊢
            obtain ⟨f, rfl⟩ : ∃ f, fuel = f + 1 := by
              refine ⟨fuel - 1, ?_⟩
              have : 1 ≤ fuel := le_trans (by simp) h
              omega
            cases r with
            | nil =>
              simp only [charMapL]
              rw [replaceAllF_cons_ne _ _ _ _ _ isPrefixOf_dollar_single,
                replaceAllF_nil]
              rfl
            | cons d r2 =>
              by_cases hbr : d = '\x7b'
              · subst hbr
                have himg2 : charMapL escBB ('\x7b' :: r2) = '\x7b' :: charMapL escBB r2 := by
                  simp [charMapL, escBB]
                rw [himg2] at h ⊢
                rw [replaceAllF_cons_match _ _ _ _ _ (isPrefixOf_dollar_hit _)]
                have hdrop : List.drop (['$', '\x7b'].length - 1) ('\x7b' :: charMapL escBB r2)
                    = charMapL escBB r2 := rfl
                rw [hdrop, ih f (by omega) r2 (by simp at h; omega)]
                rfl
              · obtain ⟨e, y, hey, hor⟩ := escBB_cons_shape d r2
                have hene : e ≠ '\x7b' := by
                  rcases hor with h' | h' <;> subst h' <;> simp_all
                rw [hey] at h ⊢
                rw [replaceAllF_cons_ne _ _ _ _ _ (isPrefixOf_dollar_second e hene _)]
                rw [show (e :: y) = charMapL escBB (d :: r2) from hey.symm]
                rw [ih f (by omega) (d :: r2) (by rw [hey]; simp at h ⊢; omega)]
                rw [onePassEsc_cons '$' (d :: r2) (by decide) (by decide)
                  (fun _ => by simp [hbr])]
          · have himg : charMapL escBB (c :: r) = c :: charMapL escBB r := by
              simp [charMapL, escBB, hbs, hbt]
            rw [himg] at h ⊢
            obtain ⟨f, rfl⟩ : ∃ f, fuel = f + 1 := by
              refine ⟨fuel - 1, ?_⟩
              have : 1 ≤ fuel := le_trans (by simp) h
              omega
            rw [replaceAllF_cons_ne _ _ _ _ _ (isPrefixOf_dollar_head c hdl _),
              ih f (by omega) r (by simp at h; omega),
              onePassEsc_cons c r hbs hbt (fun hc => absurd hc hdl)]

theorem escape_js_data (s : String) : (escape_js s).data = onePassEsc s.data := by
  have h1 : (pyReplace s "\\" "\\\\").data
      = charMapL escBackslashChar s.data :=
    replaceAllF_single '\\' ['\\', '\\'] _ _ le_rfl
  have h2 : (pyReplace (pyReplace s "\\" "\\\\") "`" "\\`").data
      = charMapL escBacktickChar (pyReplace s "\\" "\\\\").data :=
    replaceAllF_single '\x60' ['\\', '\x60'] _ _ le_rfl
  have h12 : (pyReplace (pyReplace s "\\" "\\\\") "`" "\\`").data
      = charMapL escBB s.data := by
    rw [h2, h1, charMapL_comp]
    refine charMapL_congr _ _ _ (fun c => ?_)
    by_cases hb : c = '\\'
    · subst hb; decide
    · by_cases ht : c = '\x60'
      · subst ht; decide
      · simp [charMapL, escBackslashChar, escBacktickChar, escBB, hb, ht]
  have h3 : (escape_js s).data
      = replaceAllF ['$', '\x7b'] ['\\', '$', '\x7b']
          (pyReplace (pyReplace s "\\" "\\\\") "`" "\\`").data.length
          (pyReplace (pyReplace s "\\" "\\\\") "`" "\\`").data := rfl
  rw [h3, h12]
  exact replaceAll_dollar_onePass _ _ le_rfl

theorem js_unescape_cons (c : Char) (r : List Char) (h1 : c ≠ '\\') (h2 : c ≠ '\x60')
    (h3 : c = '$' → r.head? ≠ some '\x7b') :
    js_unescape (c :: r) = (js_unescape r).map (fun t => c :: t) := by
  cases r with
  | nil =>
    unfold js_unescape
    split
    all_goals simp_all
    all_goals rfl
  | cons d r2 =>
    unfold js_unescape
    split
    all_goals simp_all
    all_goals rw [js_unescape.eq_def]

theorem onePassEsc_head (d : Char) (r2 : List Char) :
    ∃ e y, onePassEsc (d :: r2) = e :: y ∧ (e = d ∨ e = '\\') := by
  by_cases hb : d = '\\'
  · subst hb
    exact ⟨'\\', '\\' :: onePassEsc r2, rfl, Or.inr rfl⟩
  · by_cases ht : d = '\x60'
    · subst ht
      exact ⟨'\\', '\x60' :: onePassEsc r2, rfl, Or.inr rfl⟩
    · by_cases hd : d = '$'
      · subst hd
        cases r2 with
        | nil => exact ⟨'$', [], rfl, Or.inl rfl⟩
        | cons e2 r3 =>
          by_cases he : e2 = '\x7b'
          · subst he
            exact ⟨'\\', '$' :: '\x7b' :: onePassEsc r3, rfl, Or.inr rfl⟩
          · refine ⟨'$', onePassEsc (e2 :: r3), ?_, Or.inl rfl⟩
            exact onePassEsc_cons '$' (e2 :: r3) (by decide) (by decide)
              (fun _ => by simp [he])
      · refine ⟨d, onePassEsc r2, ?_, Or.inl rfl⟩
        exact onePassEsc_cons d r2 hb ht (fun hc => absurd hc hd)


theorem js_unescape_onePass (l : List Char) :
    js_unescape (onePassEsc l) = some l := by
  cases l with
  | nil => rfl
  | cons c r =>
    by_cases hb : c = '\\'
    · subst hb
      show ((js_unescape (onePassEsc r)).map (fun t => '\\' :: t)) = _
      rw [js_unescape_onePass r]
      rfl
    · by_cases ht : c = '\x60'
      · subst ht
        show ((js_unescape (onePassEsc r)).map (fun t => '\x60' :: t)) = _
        rw [js_unescape_onePass r]
        rfl
      · by_cases hd : c = '$'
        · subst hd
          cases r with
          | nil => rfl
          | cons d r2 =>
            by_cases hbr : d = '\x7b'
            · subst hbr
              show (((js_unescape (onePassEsc r2)).map (fun t => '\x7b' :: t)).map
                (fun t => '$' :: t)) = _
              rw [js_unescape_onePass r2]
              rfl
            · rw [onePassEsc_cons '$' (d :: r2) (by decide) (by decide)
                (fun _ => by simp [hbr])]
              obtain ⟨e, y, hey, hor⟩ := onePassEsc_head d r2
              have hene : e ≠ '\x7b' := by
                rcases hor with h' | h' <;> subst h' <;> simp_all
              rw [js_unescape_cons '$' (onePassEsc (d :: r2)) (by decide) (by decide)
                (fun _ => by rw [hey]; simp [hene])]
              rw [js_unescape_onePass (d :: r2)]
              rfl
        · rw [onePassEsc_cons c r hb ht (fun hc => absurd hc hd)]
          rw [js_unescape_cons c (onePassEsc r) hb ht (fun hc => absurd hc hd)]
          rw [js_unescape_onePass r]
          rfl
termination_by l.length
decreasing_by all_goals simp [List.length_cons] <;> omega

theorem onePassEsc_chars (l : List Char) :
    ∀ c ∈ onePassEsc l, c = '\\' ∨ c ∈ l := by
  cases l with
  | nil => intro c hc; simp [onePassEsc] at hc
  | cons d r =>
    by_cases hb : d = '\\'
    · subst hb
      intro c hc
      rw [show onePassEsc ('\\' :: r) = '\\' :: '\\' :: onePassEsc r from rfl] at hc
      simp only [List.mem_cons] at hc
      rcases hc with h | h | h
      · exact Or.inl h
      · exact Or.inl h
      · rcases onePassEsc_chars r c h with h' | h'
        · exact Or.inl h'
        · exact Or.inr (List.mem_cons_of_mem _ h')
    · by_cases ht : d = '\x60'
      · subst ht
        intro c hc
        rw [show onePassEsc ('\x60' :: r) = '\\' :: '\x60' :: onePassEsc r from rfl] at hc
        simp only [List.mem_cons] at hc
        rcases hc with h | h | h
        · exact Or.inl h
        · exact Or.inr (by simp [h])
        · rcases onePassEsc_chars r c h with h' | h'
          · exact Or.inl h'
          · exact Or.inr (List.mem_cons_of_mem _ h')
      · by_cases hd : d = '$'
        · subst hd
          cases r with
          | nil => intro c hc; simp [onePassEsc] at hc; simp [hc]
          | cons e r2 =>
            by_cases he : e = '\x7b'
            · subst he
              intro c hc
              rw [show onePassEsc ('$' :: '\x7b' :: r2)
                  = '\\' :: '$' :: '\x7b' :: onePassEsc r2 from rfl] at hc
              simp only [List.mem_cons] at hc
              rcases hc with h | h | h | h
              · exact Or.inl h
              · exact Or.inr (by simp [h])
              · exact Or.inr (by simp [h])
              · rcases onePassEsc_chars r2 c h with h' | h'
                · exact Or.inl h'
                · exact Or.inr (by simp [h'])
            · intro c hc
              rw [onePassEsc_cons '$' (e :: r2) (by decide) (by decide)
                (fun _ => by simp [he])] at hc
              simp only [List.mem_cons] at hc
              rcases hc with h | h
              · exact Or.inr (by simp [h])
              · rcases onePassEsc_chars (e :: r2) c h with h' | h'
                · exact Or.inl h'
                · exact Or.inr (List.mem_cons_of_mem _ h')
        · intro c hc
          rw [onePassEsc_cons d r hb ht (fun hc2 => absurd hc2 hd)] at hc
          simp only [List.mem_cons] at hc
          rcases hc with h | h
          · exact Or.inr (by simp [h])
          · rcases onePassEsc_chars r c h with h' | h'
            · exact Or.inl h'
            · exact Or.inr (List.mem_cons_of_mem _ h')
termination_by l.length
decreasing_by all_goals simp [List.length_cons] <;> omega

theorem digitChar_ne_lt (k : Nat) : Nat.digitChar k ≠ '<' := by
  rcases Nat.lt_or_ge k 16 with h | h
  · interval_cases k <;> decide
  · unfold Nat.digitChar
    repeat rw [if_neg (by omega)]
    decide

theorem toDigitsCore_mem (b : Nat) :
    ∀ (f n : Nat) (ds : List Char) (c : Char), c ∈ Nat.toDigitsCore b f n ds →
      c ∈ ds ∨ ∃ k, c = Nat.digitChar k := by
  intro f
  induction f with
  | zero =>
    intro n ds c h
    exact Or.inl h
  | succ f ih =>
    intro n ds c h
    unfold Nat.toDigitsCore at h
    dsimp only at h
    split at h
    · simp only [List.mem_cons] at h
      rcases h with h | h
      · exact Or.inr ⟨n % b, h⟩
      · exact Or.inl h
    · rcases ih _ _ _ h with h' | h'
      · simp only [List.mem_cons] at h'
        rcases h' with h'' | h''
        · exact Or.inr ⟨n % b, h''⟩
        · exact Or.inl h''
      · exact Or.inr h'

/-- No character of the decimal rendering of a natural number is an
opening angle bracket. -/
theorem natToString_ne_lt (n : Nat) :
    ∀ c ∈ (toString n).data, c ≠ '<' := by
  intro c hc
  have h1 : (toString n).data = Nat.toDigitsCore 10 (n + 1) n [] := rfl
  rw [h1] at hc
  rcases toDigitsCore_mem 10 (n + 1) n [] c hc with h | ⟨k, hk⟩
  · simp at h
  · rw [hk]
    exact digitChar_ne_lt k

theorem foldl_append_string (l : List String) :
    ∀ s : String, l.foldl (· ++ ·) s = s ++ String.join l := by
  induction l with
  | nil =>
    intro s
    show s = s ++ ""
    rw [String.append_empty]
  | cons a l ih =>
    intro s
    show l.foldl (· ++ ·) (s ++ a) = _
    rw [ih (s ++ a)]
    have hj : String.join (a :: l) = a ++ String.join l := by
      show l.foldl (· ++ ·) ("" ++ a) = _
      rw [ih ("" ++ a), String.empty_append]
    rw [hj, String.append_assoc]

theorem join_cons (a : String) (l : List String) :
    String.join (a :: l) = a ++ String.join l := by
  show l.foldl (· ++ ·) ("" ++ a) = _
  rw [foldl_append_string l ("" ++ a), String.empty_append]

theorem join_getElem_split (L : List String) :
    ∀ (i : Nat) (h : i < L.length),
      ∃ u v, String.join L = u ++ (L[i] ++ v) := by
  induction L with
  | nil => intro i h; simp at h
  | cons a L ih =>
    intro i h
    cases i with
    | zero =>
      refine ⟨"", String.join L, ?_⟩
      rw [join_cons, String.empty_append]
      simp
    | succ i =>
      obtain ⟨u, v, hu⟩ := ih i (by simpa [Nat.succ_lt_succ_iff] using h)
      refine ⟨a ++ u, v, ?_⟩
      rw [join_cons, hu, String.append_assoc]
      simp

theorem renderLoop_join (df : List Row) :
    ∀ i : Nat,
      renderLoop i df
        = (String.join ((df.enumFrom i).map (fun p => format_data p.1 p.2)),
           String.join ((df.enumFrom i).map (fun p => generate_descriptions p.1 p.2))) := by
  induction df with
  | nil => intro i; rfl
  | cons r rest ih =>
    intro i
    simp only [renderLoop, List.enumFrom_cons, List.map_cons]
    rw [ih (i + 1), join_cons, join_cons]

/-- A concrete benign record used by witness theorems. -/
def sampleRow : Row :=
  Row.mk (Val.str "T") (Val.str "Acme") (Val.str "http://a.example") (Val.str "L")
    (Val.str "2024-01-01") (Val.str "a@b.c") (Val.str "Desc")

/-- C3: the JavaScript-map escaping applies exactly the three chained
substitutions of the source, in order (every backslash doubled first, then
every backtick prefixed, then every dollar-brace sequence prefixed), and
the escaping round-trips: reading the emitted text as the body of a
JavaScript template literal — which fails on any unescaped backtick,
unescaped substitution opener or stray escape, so success also certifies
that no unescaped occurrence of those sequences remains — recovers the
original string exactly. -/
theorem escape_js_roundtrip (s : String) :
    escape_js s
      = pyReplace (pyReplace (pyReplace s "\\" "\\\\") "`" "\\`") "$\x7b" "\\$\x7b"
    ∧ js_unescape (escape_js s).data = some s.data := by
  refine ⟨rfl, ?_⟩
  rw [escape_js_data]
  exact js_unescape_onePass s.data

/-- C8: non-numeric result-count input, and numeric input outside [1, 1000],
substitute the effective count 1000 with a warning; numeric input inside
the range is used unchanged with no warning.  The function is total, so the
collection step never aborts. -/
theorem num_entries_clamp (input : String) :
    (pyInt input = none → num_entries_check input = (1000, true)) ∧
    (∀ k : Int, pyInt input = some k →
      ((k < 1 ∨ k > 1000) → num_entries_check input = (1000, true)) ∧
      (1 ≤ k → k ≤ 1000 → num_entries_check input = (k, false))) := by
  constructor
  · intro h
    simp [num_entries_check, h]
  · intro k hk
    constructor
    · intro hout
      simp [num_entries_check, hk, hout]
    · intro h1 h2
      have hno : ¬ (k < 1 ∨ k > 1000) := by omega
      simp [num_entries_check, hk, hno]

theorem num_entries_clamp_witness :
    num_entries_check "abc" = (1000, true) ∧ num_entries_check "0" = (1000, true)
    ∧ num_entries_check "1001" = (1000, true)
    ∧ num_entries_check "500" = (500, false) := by
  refine ⟨?_, ?_, ?_, ?_⟩
  · exact (num_entries_clamp "abc").1 (by decide)
  · exact ((num_entries_clamp "0").2 0 (by decide)).1 (by decide)
  · exact ((num_entries_clamp "1001").2 1001 (by decide)).1 (by decide)
  · exact ((num_entries_clamp "500").2 500 (by decide)).2 (by decide) (by decide)

/-- C2 counterexample: with company_url string form "-" (and likewise "nan")
the company cell is the literal text "-", not the escaped company name, so
the claim that the company name is rendered as plain escaped text fails. -/
theorem company_cell_cex :
    company_html (Row.mk Val.missing (Val.str "Acme") (Val.str "-") Val.missing
        Val.missing Val.missing Val.missing) = "-"
    ∧ company_html (Row.mk Val.missing (Val.str "Acme") (Val.str "-") Val.missing
        Val.missing Val.missing Val.missing) ≠ format_content (Val.str "Acme")
    ∧ hasSub ("Acme".data)
        (company_html (Row.mk Val.missing (Val.str "Acme") (Val.str "-") Val.missing
          Val.missing Val.missing Val.missing)).data = false := by
  refine ⟨rfl, by decide, by decide⟩

/-- C2 (amended): when the string form of company_url is "nan" or "-" the
company cell is the literal text "-" (no anchor); otherwise it is an anchor
whose href is exactly the raw company_url, whose text is the escaped
company name, with target _blank and rel noopener noreferrer. -/
theorem company_cell (r : Row) :
    (r.company_url.toStr = "nan" ∨ r.company_url.toStr = "-" →
      company_html r = "-") ∧
    (¬ (r.company_url.toStr = "nan" ∨ r.company_url.toStr = "-") →
      company_html r
        = "<a href=\"" ++ r.company_url.toStr
          ++ "\" target=\"_blank\" rel=\"noopener noreferrer\">"
          ++ format_content r.company ++ "</a>") := by
  constructor
  · intro h
    simp only [company_html]
    rw [if_pos h]
  · intro h
    simp only [company_html]
    rw [if_neg h]

theorem company_cell_witness :
    company_html (Row.mk Val.missing (Val.str "Acme") Val.missing Val.missing
        Val.missing Val.missing Val.missing) = "-"
    ∧ company_html sampleRow
        = "<a href=\"http://a.example\" target=\"_blank\" rel=\"noopener noreferrer\">Acme</a>" := by
  constructor
  · exact (company_cell _).1 (Or.inl (by decide))
  · rw [(company_cell sampleRow).2 (by decide)]
    decide

/-- C9: save_results updates the caller's ResultSet in place — modelled by
returning the post-call DataFrame — replacing every missing emails value by
"-" and leaving every other column of every record unchanged. -/
theorem save_results_frame (jobs : List Row) (title : String) (i : Nat)
    (h : i < jobs.length) :
    (save_results jobs title).1.length = jobs.length
    ∧ ∀ hh : i < (save_results jobs title).1.length,
        (save_results jobs title).1[i].emails
            = (if jobs[i].emails = Val.missing then Val.str "-" else jobs[i].emails)
        ∧ (save_results jobs title).1[i].title = jobs[i].title
        ∧ (save_results jobs title).1[i].company = jobs[i].company
        ∧ (save_results jobs title).1[i].company_url = jobs[i].company_url
        ∧ (save_results jobs title).1[i].location = jobs[i].location
        ∧ (save_results jobs title).1[i].date_posted = jobs[i].date_posted
        ∧ (save_results jobs title).1[i].description = jobs[i].description := by
  constructor
  · simp [save_results]
  · intro hh
    simp only [save_results, List.getElem_map]
    cases hv : jobs[i].emails <;> simp [fillna_dash, hv]

theorem save_results_frame_witness :
    (0 : Nat) < ([Row.mk (Val.str "T") Val.missing Val.missing Val.missing
        Val.missing Val.missing Val.missing] : List Row).length
    ∧ (save_results [Row.mk (Val.str "T") Val.missing Val.missing Val.missing
        Val.missing Val.missing Val.missing] "q").1
        = [Row.mk (Val.str "T") Val.missing Val.missing Val.missing
            Val.missing (Val.str "-") Val.missing] := by
  refine ⟨by decide, ?_⟩
  have := (save_results_frame [Row.mk (Val.str "T") Val.missing Val.missing
    Val.missing Val.missing Val.missing Val.missing] "q" 0 (by decide)).2 (by decide)
  decide

/-- C5: the report's "Total Leads" figure is the length of the ResultSet,
for every ResultSet and title; the empty ResultSet yields the template
instantiated with count "0", empty rows and an empty description map (the
generator is a total function, so no exception is possible). -/
theorem total_leads_count (df : List Row) (title : String) :
    (∃ u v, generate_html_content df title
        = u ++ ("Total Leads: " ++ (toString df.length ++ v)))
    ∧ generate_html_content [] title = get_html_template "0" "" "" title := by
  constructor
  · refine ⟨tplA ++ title ++ tplB0,
      tplC ++ (renderLoop 0 df).1 ++ tplD ++ (renderLoop 0 df).2 ++ tplE, ?_⟩
    show get_html_template (toString df.length) (renderLoop 0 df).1
        (renderLoop 0 df).2 title = _
    simp [get_html_template, String.append_assoc]
  · rfl

/-- C6: rendering a field into table-cell text maps every `<` to `&lt;` and
every `>` to `&gt;` character-by-character and leaves every other character
unchanged (in particular neither ampersands nor quotes are escaped). -/
theorem format_content_charwise (v : Val) :
    (format_content v).data
      = v.toStr.data.flatMap (fun c =>
          if c = '<' then ['&', 'l', 't', ';']
          else if c = '>' then ['&', 'g', 't', ';'] else [c]) := by
  rw [format_content_data]
  have hflat : ∀ l : List Char, charMapL escAngleChar l = l.flatMap escAngleChar := by
    intro l
    induction l with
    | nil => rfl
    | cons c r ih => simp [charMapL, ih]
  rw [hflat]
  rfl

/-- C7: rows and description-map entries are emitted in the ResultSet's
original order with the zero-based position as index, and for the record at
position i the three indices agree: the displayed row number is i + 1, the
showModal onclick argument is i, and the description-map key is i. -/
theorem index_correspondence (df : List Row) (i : Nat) (h : i < df.length) :
    (renderLoop 0 df).1
        = String.join ((df.enumFrom 0).map (fun p => format_data p.1 p.2))
    ∧ (renderLoop 0 df).2
        = String.join ((df.enumFrom 0).map (fun p => generate_descriptions p.1 p.2))
    ∧ (∃ w, format_data i df[i]
        = "\n            <tr>\n                <td>" ++ (toString (i + 1) ++ ("</td>" ++ w)))
    ∧ (∃ u v, format_data i df[i] = u ++ ("showModal(" ++ (toString i ++ (")" ++ v))))
    ∧ (∃ z, generate_descriptions i df[i] = toString i ++ (": " ++ z)) := by
  refine ⟨by rw [renderLoop_join df 0], by rw [renderLoop_join df 0], ?_, ?_, ?_⟩
  · refine ⟨"\n                <td>" ++ format_content df[i].title
      ++ "</td>\n                <td>" ++ company_html df[i]
      ++ "</td>\n                <td>" ++ format_content df[i].location
      ++ "</td>\n                <td>" ++ format_content df[i].date_posted
      ++ "</td>\n                <td>" ++ format_content df[i].emails
      ++ "</td>\n                <td><button class=\"view-btn\" onclick=\"showModal("
      ++ toString i
      ++ ")\">View Description</button></td>\n            </tr>\n    ", ?_⟩
    have hsplit : ("</td>\n                <td>" : String)
        = "</td>" ++ "\n                <td>" := rfl
    simp only [format_data]
    rw [hsplit]
    simp only [String.append_assoc]
  · refine ⟨"\n            <tr>\n                <td>" ++ toString (i + 1)
      ++ "</td>\n                <td>" ++ format_content df[i].title
      ++ "</td>\n                <td>" ++ company_html df[i]
      ++ "</td>\n                <td>" ++ format_content df[i].location
      ++ "</td>\n                <td>" ++ format_content df[i].date_posted
      ++ "</td>\n                <td>" ++ format_content df[i].emails
      ++ "</td>\n                <td><button class=\"view-btn\" onclick=\"",
      "\">View Description</button></td>\n            </tr>\n    ", ?_⟩
    have hsplit1 :
        ("</td>\n                <td><button class=\"view-btn\" onclick=\"showModal(" : String)
        = "</td>\n                <td><button class=\"view-btn\" onclick=\""
          ++ "showModal(" := rfl
    have hsplit2 : (")\">View Description</button></td>\n            </tr>\n    " : String)
        = ")" ++ "\">View Description</button></td>\n            </tr>\n    " := rfl
    simp only [format_data]
    rw [hsplit1, hsplit2]
    simp only [String.append_assoc]
  · refine ⟨"\x7btitle: `" ++ escape_js df[i].title.toStr
      ++ "`, desc: `" ++ escape_js df[i].description.toStr ++ "`\x7d,\n", ?_⟩
    have hsplit : (": \x7btitle: `" : String) = ": " ++ "\x7btitle: `" := rfl
    simp only [generate_descriptions]
    rw [hsplit]
    simp only [String.append_assoc]

theorem index_correspondence_witness :
    (0 : Nat) < ([sampleRow] : List Row).length
    ∧ ((renderLoop 0 [sampleRow]).1
        = String.join (([sampleRow].enumFrom 0).map (fun p => format_data p.1 p.2))
      ∧ (renderLoop 0 [sampleRow]).2
        = String.join (([sampleRow].enumFrom 0).map
            (fun p => generate_descriptions p.1 p.2))
      ∧ (∃ w, format_data 0 (([sampleRow] : List Row)[0])
          = "\n            <tr>\n                <td>" ++ (toString (0 + 1) ++ ("</td>" ++ w)))
      ∧ (∃ u v, format_data 0 (([sampleRow] : List Row)[0])
          = u ++ ("showModal(" ++ (toString 0 ++ (")" ++ v))))
      ∧ (∃ z, generate_descriptions 0 (([sampleRow] : List Row)[0])
          = toString 0 ++ (": " ++ z))) :=
  ⟨by decide, index_correspondence [sampleRow] 0 (by decide)⟩

theorem hasSub_head_false (p0 : Char) (pr l : List Char) (h : p0 ∉ l) :
    hasSub (p0 :: pr) l = false := by
  induction l with
  | nil => rfl
  | cons c r ih =>
    simp only [List.mem_cons, not_or] at h
    have hpc : (p0 == c) = false := beq_false_of_ne h.1
    have hpre : List.isPrefixOf (p0 :: pr) (c :: r) = false := by
      rw [List.isPrefixOf_cons₂, hpc]
      rfl
    show (findSub (p0 :: pr) (c :: r)).isSome = false
    rw [show findSub (p0 :: pr) (c :: r) = findSub (p0 :: pr) r by
      simp [findSub, hpre]]
    exact ih h.2

theorem escape_js_chars (s : String) (c : Char) (hc : c ∈ (escape_js s).data) :
    c = '\\' ∨ c ∈ s.data := by
  rw [escape_js_data] at hc
  exact onePassEsc_chars s.data c hc

theorem generate_descriptions_no_lt (i : Nat) (r : Row)
    (ht : '<' ∉ r.title.toStr.data) (hd : '<' ∉ r.description.toStr.data) :
    '<' ∉ (generate_descriptions i r).data := by
  intro hmem
  simp only [generate_descriptions, String.data_append, List.mem_append] at hmem
  have hts : '<' ∉ (toString i).data := fun hh => natToString_ne_lt i '<' hh rfl
  have hlit1 : '<' ∉ (": \x7btitle: `" : String).data := by decide
  have hlit2 : '<' ∉ ("`, desc: `" : String).data := by decide
  have hlit3 : '<' ∉ ("`\x7d,\n" : String).data := by decide
  have het : '<' ∉ (escape_js r.title.toStr).data := fun hh => by
    rcases escape_js_chars _ _ hh with h' | h'
    · exact absurd h' (by decide)
    · exact ht h'
  have hed : '<' ∉ (escape_js r.description.toStr).data := fun hh => by
    rcases escape_js_chars _ _ hh with h' | h'
    · exact absurd h' (by decide)
    · exact hd h'
  tauto

theorem renderLoop_descs_no_lt (df : List Row)
    (h : ∀ r ∈ df, '<' ∉ r.title.toStr.data ∧ '<' ∉ r.description.toStr.data) :
    ∀ i, '<' ∉ ((renderLoop i df).2).data := by
  induction df with
  | nil => intro i hmem; simp [renderLoop] at hmem
  | cons r rest ih =>
    intro i hmem
    simp only [renderLoop, String.data_append, List.mem_append] at hmem
    rcases hmem with hm | hm
    · exact generate_descriptions_no_lt i r (h r (by simp)).1 (h r (by simp)).2 hm
    · exact ih (fun r2 hr2 => h r2 (by simp [hr2])) (i + 1) hm

/-- Shared helper: the dash branch of `company_html`. -/
theorem company_html_dash (r : Row)
    (h : r.company_url.toStr = "nan" ∨ r.company_url.toStr = "-") :
    company_html r = "-" := by
  simp only [company_html]
  rw [if_pos h]

/-- Shared helper: the anchor branch of `company_html`. -/
theorem company_html_anchor (r : Row)
    (h : ¬ (r.company_url.toStr = "nan" ∨ r.company_url.toStr = "-")) :
    company_html r
      = "<a href=\"" ++ r.company_url.toStr
        ++ "\" target=\"_blank\" rel=\"noopener noreferrer\">"
        ++ format_content r.company ++ "</a>" := by
  simp only [company_html]
  rw [if_neg h]

theorem takeWhile_all_append (p : Char → Bool) (a : List Char) (x : Char)
    (b : List Char) (ha : ∀ c ∈ a, p c = true) (hx : p x = false) :
    (a ++ x :: b).takeWhile p = a := by
  induction a with
  | nil => simp [List.takeWhile_cons, hx]
  | cons c r ih =>
    have hc : p c = true := ha c (by simp)
    simp only [List.cons_append, List.takeWhile_cons, hc, if_true]
    rw [ih (fun c2 h2 => ha c2 (by simp [h2]))]

theorem findSub_cons_ne (pat : List Char) (c : Char) (r : List Char)
    (h : List.isPrefixOf pat (c :: r) = false) :
    findSub pat (c :: r) = findSub pat r := by
  simp [findSub, h]

theorem findSub_cons_hit (pat : List Char) (c : Char) (r : List Char)
    (h : List.isPrefixOf pat (c :: r) = true) :
    findSub pat (c :: r) = some (List.drop pat.length (c :: r)) := by
  simp [findSub, h]

theorem findSub_href_skip (c : Char) (hc : ('h' == c) = false) (r : List Char) :
    findSub ['h', 'r', 'e', 'f', '=', '"'] (c :: r)
      = findSub ['h', 'r', 'e', 'f', '=', '"'] r := by
  apply findSub_cons_ne
  rw [List.isPrefixOf_cons₂, hc]
  rfl

theorem findSub_href_hit (z : List Char) :
    findSub ['h', 'r', 'e', 'f', '=', '"'] ('h' :: 'r' :: 'e' :: 'f' :: '=' :: '"' :: z)
      = some z := by
  have h : List.isPrefixOf ['h', 'r', 'e', 'f', '=', '"']
      ('h' :: 'r' :: 'e' :: 'f' :: '=' :: '"' :: z) = true := by
    simp [List.isPrefixOf_cons₂, List.isPrefixOf]
  rw [findSub_cons_hit _ _ _ h]
  rfl

theorem hrefValue_anchor (r : Row)
    (hne : ¬ (r.company_url.toStr = "nan" ∨ r.company_url.toStr = "-"))
    (hq : '"' ∉ r.company_url.toStr.data) :
    hrefValue (company_html r) = some r.company_url.toStr := by
  rw [company_html_anchor r hne]
  simp only [hrefValue, String.data_append, List.append_assoc, List.cons_append,
    List.nil_append]
  rw [findSub_href_skip '<' rfl, findSub_href_skip 'a' rfl, findSub_href_skip ' ' rfl,
    findSub_href_hit]
  simp only [Option.map_some']
  rw [takeWhile_all_append (fun c => decide (c ≠ '"')) r.company_url.toStr.data '"' _
    (fun c hc => by
      simp only [decide_eq_true_eq, ne_eq]
      exact fun he => hq (he ▸ hc))
    (by simp)]

/-- Necessary conditions, per record, of C1's claimed "well-formed HTML/JS
for arbitrary field content" invariant: the record's description-map entry
must not contain the script-closing sequence (an HTML parser ends the
report's inline script element at the first such sequence, so its presence
breaks the entry out of the script element), and the company cell must be
either the plain dash or an anchor whose parsed href attribute value is
exactly the record's company_url (a quote in the URL ends the attribute
early, letting the rest of the value break out into the tag). -/
def no_breakout (idx : Nat) (r : Row) : Prop :=
  hasSub ("</script>".data) (generate_descriptions idx r).data = false
  ∧ (company_html r = "-" ∨ hrefValue (company_html r) = some r.company_url.toStr)

/-- C1 counterexample: a record whose description contains "</script>" and
whose company_url contains a quote produces a description-map entry that
terminates the script element early and an anchor whose href attribute
captures only the part of the URL before the quote — the claimed
well-formedness for arbitrary content is false. -/
theorem report_breakout_cex :
    ¬ no_breakout 0 (Row.mk (Val.str "T") (Val.str "Acme")
      (Val.str "x\" onmouseover=\"alert(1)") Val.missing Val.missing Val.missing
      (Val.str "</script><script>alert(1)//")) := by
  unfold no_breakout
  decide

/-- C1 (amended): the report is breakout-free provided title and description
contain no opening angle bracket and company_url is absent ("nan"/"-") or
contains no double quote: then the accumulated description map contains no
angle bracket at all (hence no script-closing sequence), and every row
satisfies the per-record no-breakout conditions. -/
theorem report_no_breakout (df : List Row)
    (h : ∀ r ∈ df,
      '<' ∉ r.title.toStr.data ∧ '<' ∉ r.description.toStr.data ∧
      (r.company_url.toStr = "nan" ∨ r.company_url.toStr = "-" ∨
        '"' ∉ r.company_url.toStr.data)) :
    (∀ c ∈ ((renderLoop 0 df).2).data, c ≠ '<')
    ∧ hasSub ("</script>".data) ((renderLoop 0 df).2).data = false
    ∧ ∀ i, ∀ hi : i < df.length, no_breakout i df[i] := by
  have hblob : '<' ∉ ((renderLoop 0 df).2).data :=
    renderLoop_descs_no_lt df (fun r hr => ⟨(h r hr).1, (h r hr).2.1⟩) 0
  refine ⟨fun c hc he => hblob (he ▸ hc), ?_, ?_⟩
  · exact hasSub_head_false '<' _ _ hblob
  · intro i hi
    have hmem : df[i] ∈ df := List.getElem_mem hi
    constructor
    · exact hasSub_head_false '<' _ _
        (generate_descriptions_no_lt i df[i] (h df[i] hmem).1 (h df[i] hmem).2.1)
    · rcases (h df[i] hmem).2.2 with h' | h' | h'
      · exact Or.inl (company_html_dash _ (Or.inl h'))
      · exact Or.inl (company_html_dash _ (Or.inr h'))
      · by_cases hnd : df[i].company_url.toStr = "nan" ∨ df[i].company_url.toStr = "-"
        · exact Or.inl (company_html_dash _ hnd)
        · exact Or.inr (hrefValue_anchor _ hnd h')

theorem report_no_breakout_witness :
    (∀ r ∈ ([sampleRow] : List Row),
      '<' ∉ r.title.toStr.data ∧ '<' ∉ r.description.toStr.data ∧
      (r.company_url.toStr = "nan" ∨ r.company_url.toStr = "-" ∨
        '"' ∉ r.company_url.toStr.data))
    ∧ ((∀ c ∈ ((renderLoop 0 [sampleRow]).2).data, c ≠ '<')
      ∧ hasSub ("</script>".data) ((renderLoop 0 [sampleRow]).2).data = false
      ∧ ∀ i, ∀ hi : i < ([sampleRow] : List Row).length,
          no_breakout i ([sampleRow] : List Row)[i]) :=
  ⟨by decide, report_no_breakout [sampleRow] (by decide)⟩

/-- C10 counterexample: when company is a missing value and company_url is
missing as well, the company cell is the sentinel "-" chosen by the
company_url branch — the text "nan" does not appear in the cell — so the
claim that a missing company renders as "nan" in its table cell fails. -/
theorem missing_company_cex :
    company_html (Row.mk Val.missing Val.missing Val.missing Val.missing
        Val.missing Val.missing Val.missing) = "-"
    ∧ hasSub ("nan".data)
        (company_html (Row.mk Val.missing Val.missing Val.missing Val.missing
          Val.missing Val.missing Val.missing)).data = false := by
  refine ⟨rfl, by decide⟩

/-- C10 (amended): only emails is normalized; a missing title, location or
date_posted renders as the literal text "nan" in its table cell, a missing
title or description yields the text "nan" in the description-map entry,
and a missing company renders as "nan" as the anchor text when company_url
is present — but when company_url is "nan" or "-" the company cell is the
literal "-" regardless of the company value. -/
theorem missing_renders_nan (r : Row) (i : Nat) :
    format_data i r
      = "\n            <tr>\n                <td>" ++ toString (i + 1)
        ++ "</td>\n                <td>" ++ format_content r.title
        ++ "</td>\n                <td>" ++ company_html r
        ++ "</td>\n                <td>" ++ format_content r.location
        ++ "</td>\n                <td>" ++ format_content r.date_posted
        ++ "</td>\n                <td>" ++ format_content r.emails
        ++ "</td>\n                <td><button class=\"view-btn\" onclick=\"showModal("
        ++ toString i
        ++ ")\">View Description</button></td>\n            </tr>\n    "
    ∧ (r.title = Val.missing → format_content r.title = "nan")
    ∧ (r.location = Val.missing → format_content r.location = "nan")
    ∧ (r.date_posted = Val.missing → format_content r.date_posted = "nan")
    ∧ (r.title = Val.missing → escape_js r.title.toStr = "nan")
    ∧ (r.description = Val.missing → escape_js r.description.toStr = "nan")
    ∧ (r.company = Val.missing →
        ¬ (r.company_url.toStr = "nan" ∨ r.company_url.toStr = "-") →
        company_html r
          = "<a href=\"" ++ r.company_url.toStr
            ++ "\" target=\"_blank\" rel=\"noopener noreferrer\">nan</a>")
    ∧ ((r.company_url.toStr = "nan" ∨ r.company_url.toStr = "-") →
        company_html r = "-") := by
  refine ⟨rfl, ?_, ?_, ?_, ?_, ?_, ?_, ?_⟩
  · intro h; rw [h]; decide
  · intro h; rw [h]; decide
  · intro h; rw [h]; decide
  · intro h; rw [h]; decide
  · intro h; rw [h]; decide
  · intro hc hu
    rw [company_html_anchor r hu, hc]
    rw [show format_content Val.missing = "nan" from rfl]
    rw [show ("\" target=\"_blank\" rel=\"noopener noreferrer\">nan</a>" : String)
        = "\" target=\"_blank\" rel=\"noopener noreferrer\">" ++ ("nan" ++ "</a>")
      from rfl]
    simp only [String.append_assoc]
  · exact company_html_dash r

theorem missing_renders_nan_witness :
    format_content Val.missing = "nan"
    ∧ escape_js (Val.missing).toStr = "nan"
    ∧ company_html (Row.mk Val.missing Val.missing (Val.str "http://x") Val.missing
        Val.missing Val.missing Val.missing)
      = "<a href=\"http://x\" target=\"_blank\" rel=\"noopener noreferrer\">nan</a>" := by
  have h := missing_renders_nan (Row.mk Val.missing Val.missing (Val.str "http://x")
    Val.missing Val.missing Val.missing Val.missing) 0
  refine ⟨h.2.1 rfl, h.2.2.2.2.2.1 rfl, ?_⟩
  rw [h.2.2.2.2.2.2.1 rfl (by decide)]
  decide

/-- Reads the body of a quoted CSV field after its opening quote: a doubled
quote character denotes a literal quote, a single quote closes the field.
Returns the field text and the rest of the input. -/
def parse_quoted : List Char → Option (List Char × List Char)
  | [] => none
  | '"' :: '"' :: r => (parse_quoted r).map (fun p => ('"' :: p.1, p.2))
  | '"' :: r => some ([], r)
  | c :: r => (parse_quoted r).map (fun p => (c :: p.1, p.2))

theorem parse_quoted_close (r : List Char) (h : r.head? ≠ some '"') :
    parse_quoted ('"' :: r) = some ([], r) := by
  cases r with
  | nil => rfl
  | cons d r2 =>
    unfold parse_quoted
    split
    all_goals simp_all
    all_goals (rename_i x heq; exact absurd heq.1.symm x)

theorem parse_quoted_other (c : Char) (r : List Char) (h : c ≠ '"') :
    parse_quoted (c :: r) = (parse_quoted r).map (fun p => (c :: p.1, p.2)) := by
  cases r with
  | nil =>
    unfold parse_quoted
    split
    all_goals simp_all
    all_goals rfl
  | cons d r2 =>
    unfold parse_quoted
    split
    all_goals simp_all
    all_goals rw [parse_quoted.eq_def]

theorem parse_quoted_length (l : List Char) :
    ∀ f rest, parse_quoted l = some (f, rest) → rest.length < l.length := by
  cases l with
  | nil => intro f rest h; simp [parse_quoted] at h
  | cons c r =>
    by_cases hc : c = '"'
    · subst hc
      cases r with
      | nil =>
        intro f rest h
        simp [parse_quoted] at h
        simp [h.2.symm]
      | cons d r2 =>
        by_cases hd : d = '"'
        · subst hd
          intro f rest h
          rw [show parse_quoted ('"' :: '"' :: r2)
              = (parse_quoted r2).map (fun p => ('"' :: p.1, p.2)) from rfl] at h
          cases hq : parse_quoted r2 with
          | none => rw [hq] at h; simp at h
          | some p =>
            rw [hq] at h
            simp only [Option.map_some', Option.some_inj] at h
            have := parse_quoted_length r2 p.1 p.2 (by rw [hq])
            have h2 := congrArg Prod.snd h
            simp at h2
            simp [← h2]
            omega
        · intro f rest h
          rw [parse_quoted_close (d :: r2) (by simp [hd])] at h
          simp only [Option.some_inj] at h
          have h2 := congrArg Prod.snd h
          simp at h2
          simp [← h2]
          try omega
    · intro f rest h
      rw [parse_quoted_other c r hc] at h
      cases hq : parse_quoted r with
      | none => rw [hq] at h; simp at h
      | some p =>
        rw [hq] at h
        simp only [Option.map_some', Option.some_inj] at h
        have := parse_quoted_length r p.1 p.2 (by rw [hq])
        have h2 := congrArg Prod.snd h
        simp at h2
        simp [← h2]
        omega
termination_by l.length
decreasing_by all_goals simp [List.length_cons] <;> omega

/-- Reads a quote-all-fields CSV text as a list of records of field texts.
Every field must open with a quote (so success certifies that every field
of every record is quoted); after a field, a comma continues the record and
a newline terminates it; the last record is terminated by the trailing
newline at end of input. -/
def parse_csv_aux (l : List Char) : Option (List (List (List Char))) :=
  match l with
  | '"' :: r =>
    match hq : parse_quoted r with
    | none => none
    | some (f, rest) =>
      match hr : rest with
      | ',' :: r2 =>
        match parse_csv_aux r2 with
        | some (cur :: recs) => some ((f :: cur) :: recs)
        | _ => none
      | '\n' :: [] => some [[f]]
      | '\n' :: r2 => (parse_csv_aux r2).map (fun recs => [f] :: recs)
      | _ => none
  | _ => none
termination_by l.length
decreasing_by
  all_goals
    have hlt := parse_quoted_length r f _ hq
    subst hr
    simp_all [List.length_cons]
    omega

theorem parse_csv_aux_comma (x f r2 : List Char)
    (hx : parse_quoted x = some (f, ',' :: r2)) :
    parse_csv_aux ('"' :: x)
      = match parse_csv_aux r2 with
        | some (cur :: recs) => some ((f :: cur) :: recs)
        | _ => none := by
  rw [parse_csv_aux.eq_def]
  split
  · rename_i r heq
    injection heq with h1 h2
    subst h2
    split
    · rename_i hq2
      rw [hx] at hq2
      exact absurd hq2 (by simp)
    · rename_i f2 rest2 hq2
      rw [hx] at hq2
      injection hq2 with h3
      injection h3 with h4 h5
      subst h4
      subst h5
      rfl
  · rename_i hcatch
    exact absurd rfl (hcatch x)

theorem parse_csv_aux_last (x f : List Char)
    (hx : parse_quoted x = some (f, ['\n'])) :
    parse_csv_aux ('"' :: x) = some [[f]] := by
  rw [parse_csv_aux.eq_def]
  split
  · rename_i r heq
    injection heq with h1 h2
    subst h2
    split
    · rename_i hq2
      rw [hx] at hq2
      exact absurd hq2 (by simp)
    · rename_i f2 rest2 hq2
      rw [hx] at hq2
      injection hq2 with h3
      injection h3 with h4 h5
      subst h4
      subst h5
      rfl
  · rename_i hcatch
    exact absurd rfl (hcatch x)

theorem parse_csv_aux_newline (x f : List Char) (a : Char) (b : List Char)
    (hx : parse_quoted x = some (f, '\n' :: a :: b)) :
    parse_csv_aux ('"' :: x)
      = (parse_csv_aux (a :: b)).map (fun recs => [f] :: recs) := by
  rw [parse_csv_aux.eq_def]
  split
  · rename_i r heq
    injection heq with h1 h2
    subst h2
    split
    · rename_i hq2
      rw [hx] at hq2
      exact absurd hq2 (by simp)
    · rename_i f2 rest2 hq2
      rw [hx] at hq2
      injection hq2 with h3
      injection h3 with h4 h5
      subst h4
      subst h5
      rfl
  · rename_i hcatch
    exact absurd rfl (hcatch x)

/-- Per-character effect of the quote doubling in `csv_field`. -/
def quoteDouble (c : Char) : List Char :=
  if c = '"' then ['"', '"'] else [c]

theorem csv_field_data (s : String) :
    (csv_field s).data = '"' :: (charMapL quoteDouble s.data ++ ['"']) := by
  have h : (pyReplace s "\"" "\"\"").data
      = charMapL (fun c => if c = '"' then ['"', '"'] else [c]) s.data :=
    replaceAllF_single '"' ['"', '"'] _ _ le_rfl
  simp only [csv_field, String.data_append, h]
  simp only [List.append_assoc, List.cons_append, List.nil_append]
  rfl

theorem parse_quoted_roundtrip (b : List Char) (rest : List Char)
    (hrest : rest.head? ≠ some '"') :
    parse_quoted (charMapL quoteDouble b ++ ('"' :: rest)) = some (b, rest) := by
  induction b with
  | nil =>
    simp only [charMapL, List.nil_append]
    exact parse_quoted_close rest hrest
  | cons c b ih =>
    by_cases hc : c = '"'
    · subst hc
      rw [show charMapL quoteDouble ('"' :: b) = '"' :: '"' :: charMapL quoteDouble b
          from by simp [charMapL, quoteDouble]]
      rw [show ('"' :: '"' :: charMapL quoteDouble b) ++ ('"' :: rest)
          = '"' :: '"' :: (charMapL quoteDouble b ++ ('"' :: rest)) from rfl]
      rw [show parse_quoted ('"' :: '"' :: (charMapL quoteDouble b ++ ('"' :: rest)))
          = (parse_quoted (charMapL quoteDouble b ++ ('"' :: rest))).map
              (fun p => ('"' :: p.1, p.2)) from rfl]
      rw [ih]
      rfl
    · rw [show charMapL quoteDouble (c :: b) = c :: charMapL quoteDouble b from by
        simp [charMapL, quoteDouble, hc]]
      rw [show (c :: charMapL quoteDouble b) ++ ('"' :: rest)
          = c :: (charMapL quoteDouble b ++ ('"' :: rest)) from rfl]
      rw [parse_quoted_other c _ hc, ih]
      rfl

theorem parse_record (cells : List String) (hne : cells ≠ []) :
    ∀ r2 : List Char,
      parse_csv_aux ((csv_line cells).data ++ ('\n' :: r2))
        = if r2.isEmpty then some [cells.map String.data]
          else (parse_csv_aux r2).map (fun recs => (cells.map String.data) :: recs) := by
  induction cells with
  | nil => cases hne rfl
  | cons c cs ih =>
    intro r2
    cases cs with
    | nil =>
      have hshape : (csv_line [c]).data ++ ('\n' :: r2)
          = '"' :: (charMapL quoteDouble c.data ++ ('"' :: ('\n' :: r2))) := by
        rw [show csv_line [c] = csv_field c from rfl, csv_field_data]
        simp [List.append_assoc]
      rw [hshape]
      have hq := parse_quoted_roundtrip c.data ('\n' :: r2) (by simp)
      cases r2 with
      | nil =>
        rw [parse_csv_aux_last _ _ hq]
        simp
      | cons a b =>
        rw [parse_csv_aux_newline _ _ a b hq]
        simp [List.isEmpty]
    | cons c2 cs2 =>
      have hshape : (csv_line (c :: c2 :: cs2)).data ++ ('\n' :: r2)
          = '"' :: (charMapL quoteDouble c.data
              ++ ('"' :: (',' :: ((csv_line (c2 :: cs2)).data ++ ('\n' :: r2))))) := by
        rw [show csv_line (c :: c2 :: cs2)
            = csv_field c ++ "," ++ csv_line (c2 :: cs2) from rfl]
        simp only [String.data_append, csv_field_data]
        simp [List.append_assoc]
      rw [hshape]
      have hq := parse_quoted_roundtrip c.data
        (',' :: ((csv_line (c2 :: cs2)).data ++ ('\n' :: r2))) (by simp)
      rw [parse_csv_aux_comma _ _ _ hq]
      rw [ih (by simp) r2]
      by_cases hr : r2.isEmpty
      · simp [hr]
      · cases hp : parse_csv_aux r2 with
        | none => simp [hr, hp]
        | some recs => simp [hr, hp]

theorem parse_lines (recs : List (List String)) (hne : recs ≠ [])
    (hall : ∀ rec ∈ recs, rec ≠ []) :
    parse_csv_aux (String.join (recs.map (fun cells => csv_line cells ++ "\n"))).data
      = some (recs.map (fun rec => rec.map String.data)) := by
  induction recs with
  | nil => cases hne rfl
  | cons rec rest ih =>
    rw [List.map_cons, join_cons, String.data_append]
    rw [show (csv_line rec ++ "\n").data = (csv_line rec).data ++ ['\n'] from by
      simp [String.data_append]]
    rw [List.append_assoc]
    rw [show (['\n'] : List Char)
        ++ (String.join (rest.map (fun cells => csv_line cells ++ "\n"))).data
        = '\n' :: (String.join (rest.map (fun cells => csv_line cells ++ "\n"))).data
      from rfl]
    rw [parse_record rec (hall rec (by simp))]
    cases rest with
    | nil => simp
    | cons rec2 rest2 =>
      have hJ : (String.join ((rec2 :: rest2).map
          (fun cells => csv_line cells ++ "\n"))).data.isEmpty = false := by
        rw [List.map_cons, join_cons, String.data_append]
        rw [show (csv_line rec2 ++ "\n").data = (csv_line rec2).data ++ ['\n'] from by
          simp [String.data_append]]
        cases hcl : (csv_line rec2).data <;> simp
      rw [hJ]
      simp only [Bool.false_eq_true, if_false]
      rw [ih (by simp) (fun r hr => hall r (by simp [hr]))]
      rfl

theorem csvHeader_and_cells_ne_nil (df : List Row) :
    ∀ rec ∈ (csvHeader :: df.map row_cells), rec ≠ [] := by
  intro rec hrec
  rcases List.mem_cons.mp hrec with h | h
  · subst h; simp [csvHeader]
  · obtain ⟨r, _, hr⟩ := List.mem_map.mp h
    subst hr
    simp [row_cells]

/-- C4 counterexample: a field containing an embedded quote is written with
the quote doubled, and the emitted CSV for such a record contains no
backslash at all — the configured backslash escapechar is not what escapes
embedded quotes (pandas' doublequote default governs). -/
theorem csv_escapechar_cex :
    csv_field "a\"b" = "\"a\"\"b\""
    ∧ csv_field "a\"b" ≠ "\"a\\\"b\""
    ∧ '\\' ∉ (to_csv [Row.mk (Val.str "a\"b") Val.missing Val.missing Val.missing
        Val.missing Val.missing Val.missing]).data := by
  refine ⟨by decide, by decide, by decide⟩

/-- C4 (amended): the CSV written by save_results parses back — under a
reader that accepts only fully-quoted fields — as exactly the header record
followed by one record per row whose fields are exactly the record's seven
cell texts (no index column); parsing success certifies that every field of
every row is quoted and that embedded quotes are escaped by doubling (the
second conjunct states the quote-doubling shape of each written field
explicitly). -/
theorem to_csv_shape (df : List Row) :
    parse_csv_aux (to_csv df).data
      = some ((csvHeader :: df.map row_cells).map (fun rec => rec.map String.data))
    ∧ ∀ s : String, csv_field s = "\"" ++ pyReplace s "\"" "\"\"" ++ "\"" := by
  constructor
  · exact parse_lines (csvHeader :: df.map row_cells) (by simp)
      (csvHeader_and_cells_ne_nil df)
  · intro s; rfl
